import Mathlib

/-!
Verification development for the `chance-staking` repository.

The reward-distributor draw engine, the drand-oracle beacon store and the
shared Merkle verifier are embedded shallowly: each Rust entry point becomes
a Lean function over explicit state, machine integers become `Nat`, fallible
paths return `Except`.  SHA-256 (from the external `sha2` crate) and BLS
beacon verification (from the external `drand-verify` crate) are treated as
black-box function parameters, exactly as the contract code treats them.
-/

namespace ChanceStaking

/-! ## Bytes and hex encoding (model of the `hex` crate as used by the code) -/

/-- Value of one hex digit, `none` for a non-hex character
(mirrors the per-character failure of `hex::decode`). -/
def hexVal (c : Char) : Option Nat :=
  if '0' ≤ c ∧ c ≤ '9' then some (c.toNat - 48)
  else if 'a' ≤ c ∧ c ≤ 'f' then some (c.toNat - 87)
  else if 'A' ≤ c ∧ c ≤ 'F' then some (c.toNat - 55)
  else none

/-- Decode a list of hex characters two at a time; odd length or a bad
character fails, as in `hex::decode`. -/
def hexDecodeChars : List Char → Option (List Nat)
  | [] => some []
  | [_] => none
  | a :: b :: rest =>
    match hexVal a, hexVal b, hexDecodeChars rest with
    | some hi, some lo, some tl => some ((hi * 16 + lo) :: tl)
    | _, _, _ => none

/-- Model of `hex::decode` on a string. -/
def hexDecode (s : String) : Option (List Nat) :=
  hexDecodeChars s.data

/-- Lower-case hex digit for a value below 16 (model of `hex::encode`'s
per-nibble output). -/
def hexDigit (n : Nat) : Char :=
  if n < 10 then Char.ofNat (48 + n) else Char.ofNat (87 + n)

/-- Model of `hex::encode`: two lower-case hex characters per byte. -/
def hexEncode (bs : List Nat) : String :=
  ⟨bs.foldr (fun b acc => hexDigit (b / 16) :: hexDigit (b % 16) :: acc) []⟩

/-- Bytes of a string (addresses in this code base are ASCII bech32, so
per-character codepoints coincide with UTF-8 bytes). -/
def strBytes (s : String) : List Nat :=
  s.data.map Char.toNat

/-- Big-endian interpretation of a byte list
(model of `u128::from_be_bytes` on 16 bytes). -/
def beNat (bs : List Nat) : Nat :=
  bs.foldl (fun acc b => acc * 256 + b) 0

/-- Big-endian 16-byte encoding of a `u128`
(model of `u128::to_be_bytes`). -/
def be128 (n : Nat) : List Nat :=
  (List.range 16).map fun i => n / 256 ^ (15 - i) % 256

/-- Lexicographic `<=` on byte slices (model of Rust's `&[u8]` ordering,
used by the sorted-pair hashing in `verify_merkle_proof`). -/
def bytesLe : List Nat → List Nat → Bool
  | [], _ => true
  | _ :: _, [] => false
  | a :: as_, b :: bs =>
    if a < b then true
    else if b < a then false
    else bytesLe as_ bs

/-- Byte-wise XOR over 32 bytes, mirroring the indexed loop
`final_randomness[i] = drand_randomness[i] ^ secret_hash[i]` in
`reveal_draw` (both inputs have length 32 at the call site). -/
def xor32 (a b : List Nat) : List Nat :=
  (List.range 32).map fun i => Nat.xor (a.getD i 0) (b.getD i 0)

/-! ## Merkle verifier
(`packages/chance-staking-common/src/merkle.rs`)

`H` stands for the `sha2` crate's SHA-256 over a byte list, used by the
source only as a black-box 32-byte hash. -/

/-- `compute_leaf_hash`: domain-separated leaf hash
`H(0x00 || address_bytes || be128(start) || be128(end))`. -/
def compute_leaf_hash (H : List Nat → List Nat)
    (address : String) (cumulative_start cumulative_end : Nat) : List Nat :=
  H (0x00 :: (strBytes address ++ be128 cumulative_start ++ be128 cumulative_end))

/-- One internal node: `H(0x01 || min(a,b) || max(a,b))` by slice order
(sorted-pair hashing from `verify_merkle_proof`). -/
def sortedPairHash (H : List Nat → List Nat) (cur sib : List Nat) : List Nat :=
  if bytesLe cur sib then H (0x01 :: (cur ++ sib)) else H (0x01 :: (sib ++ cur))

/-- The proof-folding loop of `verify_merkle_proof`: each sibling must be
valid hex of exactly 32 bytes (else the whole verification returns `false`),
and the running hash is combined by sorted-pair hashing. -/
def merkleLoop (H : List Nat → List Nat) (root : List Nat) :
    List Nat → List String → Bool
  | cur, [] => cur == root
  | cur, sib_hex :: rest =>
    match hexDecode sib_hex with
    | none => false
    | some sib =>
      if sib.length = 32 then merkleLoop H root (sortedPairHash H cur sib) rest
      else false

/-- `verify_merkle_proof`: decode the root (invalid hex or length ≠ 32 gives
`false`), then fold the proof and compare with the root. -/
def verify_merkle_proof (H : List Nat → List Nat)
    (root_hex : String) (proof_hex : List String) (leaf_hash : List Nat) : Bool :=
  match hexDecode root_hex with
  | none => false
  | some expected_root =>
    if expected_root.length = 32 then merkleLoop H expected_root leaf_hash proof_hex
    else false

/-- Boolean check that a string is valid hex decoding to exactly 32 bytes. -/
def isHex32 (s : String) : Bool :=
  match hexDecode s with
  | some bs => bs.length == 32
  | none => false

/-! ## Storage model

`cw_storage_plus::Map` is modelled as an association list with first-match
lookup; `save` replaces any entry under the same key. -/

/-- `Map::may_load` / point lookup. -/
def alGet {κ α : Type} [DecidableEq κ] : List (κ × α) → κ → Option α
  | [], _ => none
  | (k', v) :: rest, k => if k' = k then some v else alGet rest k

/-- `Map::save`: overwrite-or-insert under a key. -/
def alPut {κ α : Type} [DecidableEq κ] (m : List (κ × α)) (k : κ) (v : α) :
    List (κ × α) :=
  (k, v) :: m.filter fun p => decide (p.1 ≠ k)

/-- `Map::has`. -/
def alHas {κ α : Type} [DecidableEq κ] (m : List (κ × α)) (k : κ) : Bool :=
  (alGet m k).isSome

/-! ## Shared types (`packages/chance-staking-common/src/types.rs`) -/

/-- `DrawType`. -/
inductive DrawType : Type
  | regular
  | big
deriving DecidableEq, Repr

/-- `DrawStatus`. -/
inductive DrawStatus : Type
  | committed
  | revealed
  | expired
deriving DecidableEq, Repr

/-! ## Reward distributor state (`contracts/reward-distributor/src/state.rs`)

`Timestamp` is a `Nat` of nanoseconds, `Uint128` amounts are `Nat`
(`cosmwasm_std::Uint128` aborts the transaction on overflow, so the
in-range semantics coincide). -/

/-- `Timestamp::seconds`. -/
def tsSeconds (t : Nat) : Nat := t / 1000000000

/-- `Timestamp::from_seconds`. -/
def tsFromSeconds (s : Nat) : Nat := s * 1000000000

/-- `DistributorConfig`. -/
structure DistributorConfig : Type where
  admin : String
  operator : String
  staking_hub : String
  drand_oracle : String
  reveal_deadline_seconds : Nat
  epochs_between_regular : Nat
  epochs_between_big : Nat
deriving DecidableEq, Repr

/-- `DrawStateInfo`. -/
structure DrawStateInfo : Type where
  next_draw_id : Nat
  regular_pool_balance : Nat
  big_pool_balance : Nat
  total_draws_completed : Nat
  total_rewards_distributed : Nat
  last_regular_draw_epoch : Option Nat
  last_big_draw_epoch : Option Nat
deriving DecidableEq, Repr

/-- `Draw`. -/
structure Draw : Type where
  id : Nat
  draw_type : DrawType
  epoch : Nat
  status : DrawStatus
  operator_commit : String
  target_drand_round : Nat
  drand_randomness : Option (List Nat)
  operator_secret : Option (List Nat)
  final_randomness : Option (List Nat)
  winner : Option String
  reward_amount : Nat
  created_at : Nat
  revealed_at : Option Nat
  reveal_deadline : Nat
  merkle_root : Option String
  total_weight : Option Nat
deriving DecidableEq, Repr

/-- `Snapshot`. -/
structure Snapshot : Type where
  epoch : Nat
  merkle_root : String
  total_weight : Nat
  num_holders : Nat
  submitted_at : Nat
deriving DecidableEq, Repr

/-- The distributor's storage: `CONFIG`, `DRAW_STATE`, `DRAWS`, `SNAPSHOTS`
and the per-user win-tracking maps.  The `LATEST_SNAPSHOT_EPOCH` item is
declared in `state.rs` but never read or written by any function of the
contract, so it has no run-time content to model. -/
structure DistState : Type where
  config : DistributorConfig
  draw_state : DrawStateInfo
  draws : List (Nat × Draw)
  snapshots : List (Nat × Snapshot)
  user_wins : List ((String × Nat) × Unit)
  user_win_count : List (String × Nat)
  user_total_won : List (String × Nat)
deriving DecidableEq, Repr

/-- `ContractError` (`contracts/reward-distributor/src/error.rs`), plus one
extra constructor `remByZeroPanic` standing for the abort Rust's `%`
raises on a zero divisor (reachable in `reveal_draw` because nothing
rejects a zero-total-weight snapshot). -/
inductive ContractError : Type
  | unauthorized (reason : String)
  | drawNotFound (draw_id : Nat)
  | drawNotCommitted (draw_id : Nat)
  | drawExpired (draw_id deadline : Nat)
  | drawNotExpired (draw_id deadline : Nat)
  | commitMismatch
  | invalidMerkleProof
  | winningTicketOutOfRange (ticket range_start range_end : Nat)
  | noSnapshot
  | beaconNotFound (round : Nat)
  | invalidHex (field : String)
  | noFundsSent
  | drawTooSoon (draw_type : String) (epoch last_epoch min_gap : Nat)
  | emptyPool (pool : String)
  | invalidEpoch (provided latest : Nat)
  | zeroWeight
  | snapshotAlreadyExists (epoch : Nat)
  | insufficientContractBalance (required available : Nat)
  | remByZeroPanic
deriving DecidableEq, Repr

/-! ## Reward distributor entry points
(`contracts/reward-distributor/src/execute.rs`) -/

/-- `set_snapshot`: staking-hub only; stores the snapshot under its epoch.
The source performs no existence check before `SNAPSHOTS.save`. -/
def set_snapshot (s : DistState) (env_time : Nat) (sender : String)
    (epoch : Nat) (merkle_root : String) (total_weight : Nat)
    (num_holders : Nat) : Except ContractError DistState :=
  if sender ≠ s.config.staking_hub then
    .error (.unauthorized "only staking hub can set snapshots")
  else
    let snapshot : Snapshot :=
      { epoch := epoch, merkle_root := merkle_root, total_weight := total_weight
        num_holders := num_holders, submitted_at := env_time }
    .ok { s with snapshots := alPut s.snapshots epoch snapshot }

/-- `CommitDrawParams` (`msg.rs`). -/
structure CommitDrawParams : Type where
  draw_type : DrawType
  operator_commit : String
  target_drand_round : Nat
  epoch : Nat
deriving DecidableEq, Repr

/-- The per-draw-type `match` inside `commit_draw`: enforce epoch spacing,
require a non-empty pool, drain the whole pool as the reward. -/
def commitInner (cfg : DistributorConfig) (st : DrawStateInfo) (epoch : Nat) :
    DrawType → Except ContractError (Nat × DrawStateInfo)
  | .regular =>
    match st.last_regular_draw_epoch with
    | some last =>
      if epoch < last + cfg.epochs_between_regular then
        .error (.drawTooSoon "regular" epoch last cfg.epochs_between_regular)
      else if st.regular_pool_balance = 0 then .error (.emptyPool "regular")
      else .ok (st.regular_pool_balance,
        { st with regular_pool_balance := 0, last_regular_draw_epoch := some epoch })
    | none =>
      if st.regular_pool_balance = 0 then .error (.emptyPool "regular")
      else .ok (st.regular_pool_balance,
        { st with regular_pool_balance := 0, last_regular_draw_epoch := some epoch })
  | .big =>
    match st.last_big_draw_epoch with
    | some last =>
      if epoch < last + cfg.epochs_between_big then
        .error (.drawTooSoon "big" epoch last cfg.epochs_between_big)
      else if st.big_pool_balance = 0 then .error (.emptyPool "big")
      else .ok (st.big_pool_balance,
        { st with big_pool_balance := 0, last_big_draw_epoch := some epoch })
    | none =>
      if st.big_pool_balance = 0 then .error (.emptyPool "big")
      else .ok (st.big_pool_balance,
        { st with big_pool_balance := 0, last_big_draw_epoch := some epoch })

/-- `commit_draw`: operator only; the epoch must have a snapshot (the
source checks existence only — it never consults a latest-epoch watermark
and never inspects the snapshot's total weight). -/
def commit_draw (s : DistState) (env_time : Nat) (sender : String)
    (p : CommitDrawParams) : Except ContractError DistState :=
  if sender ≠ s.config.operator then
    .error (.unauthorized "only operator can commit draws")
  else if ¬ alHas s.snapshots p.epoch then .error .noSnapshot
  else
    match commitInner s.config s.draw_state p.epoch p.draw_type with
    | .error e => .error e
    | .ok (reward_amount, st) =>
      let draw_id := st.next_draw_id
      let st := { st with next_draw_id := st.next_draw_id + 1 }
      let reveal_deadline :=
        tsFromSeconds (tsSeconds env_time + s.config.reveal_deadline_seconds)
      let draw : Draw :=
        { id := draw_id, draw_type := p.draw_type, epoch := p.epoch
          status := .committed, operator_commit := p.operator_commit
          target_drand_round := p.target_drand_round, drand_randomness := none
          operator_secret := none, final_randomness := none, winner := none
          reward_amount := reward_amount, created_at := env_time
          revealed_at := none, reveal_deadline := reveal_deadline
          merkle_root := none, total_weight := none }
      .ok { s with draws := alPut s.draws draw_id draw, draw_state := st }

/-- `RevealDrawParams` (`msg.rs`). -/
structure RevealDrawParams : Type where
  draw_id : Nat
  operator_secret_hex : String
  winner_address : String
  winner_cumulative_start : Nat
  winner_cumulative_end : Nat
  merkle_proof : List String
deriving DecidableEq, Repr

/-- Result of a successful `reveal_draw`: the new storage plus the
`BankMsg::Send` the contract emits and the winning ticket it reports. -/
structure RevealOutcome : Type where
  state : DistState
  send_to : String
  send_amount : Nat
  winning_ticket : Nat
deriving DecidableEq, Repr

/-- `reveal_draw`.  `H` is SHA-256 (the `sha2` crate); `oracle` is the
drand-oracle `Beacon { round }` smart query, returning the stored beacon's
randomness bytes when the round is present.  Address validation by the host
(`deps.api.addr_validate`) is the identity on the sender-supplied string.
The winning-ticket step performs Rust `%` on `u128`; a zero divisor aborts,
modelled by the `remByZeroPanic` error. -/
def reveal_draw (H : List Nat → List Nat) (oracle : Nat → Option (List Nat))
    (s : DistState) (env_time : Nat) (sender : String)
    (p : RevealDrawParams) : Except ContractError RevealOutcome :=
  if sender ≠ s.config.operator then
    .error (.unauthorized "only operator can reveal draws")
  else
    match alGet s.draws p.draw_id with
    | none => .error (.drawNotFound p.draw_id)
    | some draw =>
      if draw.status ≠ .committed then .error (.drawNotCommitted p.draw_id)
      else if env_time > draw.reveal_deadline then
        .error (.drawExpired p.draw_id (tsSeconds draw.reveal_deadline))
      else
        match hexDecode p.operator_secret_hex with
        | none => .error (.invalidHex "operator_secret_hex")
        | some operator_secret =>
          let secret_hash := H operator_secret
          if hexEncode secret_hash ≠ draw.operator_commit then
            .error .commitMismatch
          else
            match oracle draw.target_drand_round with
            | none => .error (.beaconNotFound draw.target_drand_round)
            | some drand_randomness =>
              if drand_randomness.length ≠ 32 then
                .error (.beaconNotFound draw.target_drand_round)
              else
                let final_randomness := xor32 drand_randomness secret_hash
                match alGet s.snapshots draw.epoch with
                | none => .error .noSnapshot
                | some snapshot =>
                  let total_weight := snapshot.total_weight
                  let ticket_raw := beNat (final_randomness.take 16)
                  if total_weight = 0 then .error .remByZeroPanic
                  else
                    let winning_ticket := ticket_raw % total_weight
                    if winning_ticket < p.winner_cumulative_start ∨
                        winning_ticket ≥ p.winner_cumulative_end then
                      .error (.winningTicketOutOfRange winning_ticket
                        p.winner_cumulative_start p.winner_cumulative_end)
                    else
                      let leaf_hash := compute_leaf_hash H p.winner_address
                        p.winner_cumulative_start p.winner_cumulative_end
                      if ¬ verify_merkle_proof H snapshot.merkle_root
                          p.merkle_proof leaf_hash then
                        .error .invalidMerkleProof
                      else
                        let draw' := { draw with
                          status := .revealed
                          drand_randomness := some drand_randomness
                          operator_secret := some operator_secret
                          final_randomness := some final_randomness
                          winner := some p.winner_address
                          revealed_at := some env_time
                          merkle_root := some snapshot.merkle_root
                          total_weight := some total_weight }
                        let st := s.draw_state
                        let st := { st with
                          total_draws_completed := st.total_draws_completed + 1
                          total_rewards_distributed :=
                            st.total_rewards_distributed + draw.reward_amount }
                        let win_count :=
                          (alGet s.user_win_count p.winner_address).getD 0
                        let user_total :=
                          (alGet s.user_total_won p.winner_address).getD 0
                        .ok
                          { state := { s with
                              draws := alPut s.draws p.draw_id draw'
                              draw_state := st
                              user_wins := alPut s.user_wins
                                (p.winner_address, p.draw_id) ()
                              user_win_count := alPut s.user_win_count
                                p.winner_address (win_count + 1)
                              user_total_won := alPut s.user_total_won
                                p.winner_address (user_total + draw.reward_amount) }
                            send_to := p.winner_address
                            send_amount := draw.reward_amount
                            winning_ticket := winning_ticket }

/-- `expire_draw`: callable by anyone; the draw must be `Committed` and past
its deadline; its reward is returned to its type's pool. -/
def expire_draw (s : DistState) (env_time : Nat) (draw_id : Nat) :
    Except ContractError DistState :=
  match alGet s.draws draw_id with
  | none => .error (.drawNotFound draw_id)
  | some draw =>
    if draw.status ≠ .committed then .error (.drawNotCommitted draw_id)
    else if env_time ≤ draw.reveal_deadline then
      .error (.drawNotExpired draw_id (tsSeconds draw.reveal_deadline))
    else
      let st := s.draw_state
      let st :=
        match draw.draw_type with
        | .regular =>
          { st with regular_pool_balance := st.regular_pool_balance + draw.reward_amount }
        | .big =>
          { st with big_pool_balance := st.big_pool_balance + draw.reward_amount }
      let draws := alPut s.draws draw_id { draw with status := .expired }
      .ok { s with draw_state := st, draws := draws }

/-! ## Drand oracle (`contracts/drand-oracle/src`) -/

/-- `OracleConfig` (`state.rs`). -/
structure OracleConfig : Type where
  admin : String
  operators : List String
  quicknet_pubkey : List Nat
  chain_hash : String
  genesis_time : Nat
  period_seconds : Nat
deriving DecidableEq, Repr

/-- `StoredBeacon` (`state.rs`). -/
structure StoredBeacon : Type where
  round : Nat
  randomness : List Nat
  signature : List Nat
  verified : Bool
  submitted_at : Nat
  submitted_by : String
deriving DecidableEq, Repr

/-- Oracle storage: `CONFIG`, `BEACONS`, `LATEST_ROUND`. -/
structure OracleState : Type where
  config : OracleConfig
  beacons : List (Nat × StoredBeacon)
  latest_round : Option Nat
deriving DecidableEq, Repr

/-- Oracle `ContractError` variants reachable from `submit_beacon`. -/
inductive OracleError : Type
  | unauthorized (reason : String)
  | beaconAlreadyExists (round : Nat)
  | invalidHex (field : String)
  | verificationFailed (reason : String)
deriving DecidableEq, Repr

/-- `submit_beacon` (`execute.rs`).  `verify` is the external
`verify_quicknet_beacon` BLS check from the `drand-verify` crate, a
black-box from this contract's point of view: it takes the configured
public key, the round and the decoded signature, and either fails with a
message or yields the 32-byte randomness. -/
def submit_beacon (verify : List Nat → Nat → List Nat → Except String (List Nat))
    (s : OracleState) (env_time : Nat) (sender : String)
    (round : Nat) (signature_hex : String) : Except OracleError OracleState :=
  if ¬ s.config.operators.contains sender then
    .error (.unauthorized "only operators can submit beacons")
  else if alHas s.beacons round then .error (.beaconAlreadyExists round)
  else
    match hexDecode signature_hex with
    | none => .error (.invalidHex "signature_hex")
    | some signature =>
      match verify s.config.quicknet_pubkey round signature with
      | .error e => .error (.verificationFailed e)
      | .ok randomness =>
        let beacon : StoredBeacon :=
          { round := round, randomness := randomness, signature := signature
            verified := true, submitted_at := env_time, submitted_by := sender }
        let current_latest := s.latest_round.getD 0
        let latest := if round > current_latest then some round else s.latest_round
        .ok { s with beacons := alPut s.beacons round beacon, latest_round := latest }

/-! ## Property vocabulary -/

/-- The winning-ticket computation extracted from `reveal_draw` steps 3–4:
`final = drand XOR secret_hash` byte-wise over 32 bytes, then the big-endian
`u128` of `final[0..16]` modulo the total weight.  A pure function of
exactly (drand randomness, hashed secret, total weight). -/
def winningTicket (drand secret_hash : List Nat) (total_weight : Nat) : Nat :=
  beNat ((xor32 drand secret_hash).take 16) % total_weight

/-- The pool balance of a draw type. -/
def poolOf (st : DrawStateInfo) : DrawType → Nat
  | .regular => st.regular_pool_balance
  | .big => st.big_pool_balance

/-- The pool label string used in `EmptyPool` errors. -/
def poolName : DrawType → String
  | .regular => "regular"
  | .big => "big"

/-- Reward a draw contributes to its type's conservation quantity while
`Committed`. -/
def committedContribution (d : Draw) (ty : DrawType) : Nat :=
  if d.draw_type = ty ∧ d.status = .committed then d.reward_amount else 0

/-- Sum of `reward_amount` over the stored draws of a type in `Committed`
status. -/
def committedRewards : List (Nat × Draw) → DrawType → Nat
  | [], _ => 0
  | (_, d) :: rest, ty => committedContribution d ty + committedRewards rest ty

/-- The conserved quantity of claim C6: pool balance plus committed
rewards, per draw type. -/
def poolInvariant (s : DistState) (ty : DrawType) : Nat :=
  poolOf s.draw_state ty + committedRewards s.draws ty

/-- The epoch-spacing precondition of `commit_draw` for a draw type
(the guard that raises `DrawTooSoon` when violated). -/
def spacingOk (cfg : DistributorConfig) (st : DrawStateInfo) (epoch : Nat) :
    DrawType → Prop
  | .regular => ∀ last, st.last_regular_draw_epoch = some last →
      ¬ epoch < last + cfg.epochs_between_regular
  | .big => ∀ last, st.last_big_draw_epoch = some last →
      ¬ epoch < last + cfg.epochs_between_big

/-! ## Concrete fixtures used to evaluate the embedding -/

/-- A stand-in 32-byte hash function (the theorems about the draw engine
are parametric in the hash; witnesses instantiate it). -/
def H0 : List Nat → List Nat := fun _ => List.replicate 32 0

/-- A beacon query with round 1000 present (32 zero bytes of randomness). -/
def oracle0 : Nat → Option (List Nat) :=
  fun r => if r = 1000 then some (List.replicate 32 0) else none

/-- Hex of 32 zero bytes. -/
def zeroesHex : String := hexEncode (List.replicate 32 0)

/-- Hex of 32 `0xaa` bytes. -/
def rootA : String := hexEncode (List.replicate 32 0xaa)

/-- Hex of 32 `0xbb` bytes. -/
def rootB : String := hexEncode (List.replicate 32 0xbb)

def cfg0 : DistributorConfig :=
  { admin := "adm", operator := "op", staking_hub := "hub", drand_oracle := "orc"
    reveal_deadline_seconds := 3600, epochs_between_regular := 1
    epochs_between_big := 1 }

def snap0 : Snapshot :=
  { epoch := 1, merkle_root := zeroesHex, total_weight := 1000
    num_holders := 1, submitted_at := 0 }

def draw0 : Draw :=
  { id := 0, draw_type := .regular, epoch := 1, status := .committed
    operator_commit := zeroesHex, target_drand_round := 1000
    drand_randomness := none, operator_secret := none, final_randomness := none
    winner := none, reward_amount := 50000000, created_at := 0
    revealed_at := none, reveal_deadline := tsFromSeconds 3600
    merkle_root := none, total_weight := none }

def dst0 : DrawStateInfo :=
  { next_draw_id := 1, regular_pool_balance := 0, big_pool_balance := 0
    total_draws_completed := 0, total_rewards_distributed := 0
    last_regular_draw_epoch := some 1, last_big_draw_epoch := none }

/-- One committed draw over the epoch-1 snapshot. -/
def st0 : DistState :=
  { config := cfg0, draw_state := dst0, draws := [(0, draw0)]
    snapshots := [(1, snap0)], user_wins := [], user_win_count := []
    user_total_won := [] }

/-- Reveal arguments matching `st0`: empty secret, single-leaf proof whose
root equals the leaf hash under `H0`. -/
def p0 : RevealDrawParams :=
  { draw_id := 0, operator_secret_hex := "", winner_address := "inj1winner"
    winner_cumulative_start := 0, winner_cumulative_end := 1000
    merkle_proof := [] }

/-- A draw whose stored commitment cannot match `H0` of any secret. -/
def draw2 : Draw := { draw0 with operator_commit := "00" }

def st2 : DistState := { st0 with draws := [(0, draw2)] }

/-- A draw already revealed (terminal). -/
def draw7 : Draw := { draw0 with status := .revealed }

def st7 : DistState := { st0 with draws := [(0, draw7)] }

/-- State with an epoch-1 snapshot, for the duplicate-write experiment. -/
def snapOld : Snapshot :=
  { epoch := 1, merkle_root := rootA, total_weight := 1000
    num_holders := 10, submitted_at := 0 }

def stC3 : DistState := { st0 with draws := [], snapshots := [(1, snapOld)] }

/-- A later snapshot at epoch 3. -/
def snapE3 : Snapshot :=
  { epoch := 3, merkle_root := rootB, total_weight := 2000
    num_holders := 20, submitted_at := 0 }

/-- Snapshots at epochs 1 and 3 (3 is the latest), funded regular pool,
no earlier draws. -/
def stC4 : DistState :=
  { st0 with
    draws := []
    snapshots := [(1, snapOld), (3, snapE3)]
    draw_state := { dst0 with
                    next_draw_id := 0
                    regular_pool_balance := 100
                    last_regular_draw_epoch := none } }

def pC4 : CommitDrawParams :=
  { draw_type := .regular, operator_commit := zeroesHex
    target_drand_round := 1000, epoch := 1 }

/-- A zero-total-weight snapshot. -/
def snapZW : Snapshot :=
  { epoch := 1, merkle_root := zeroesHex, total_weight := 0
    num_holders := 0, submitted_at := 0 }

def stC5 : DistState :=
  { st0 with
    draws := []
    snapshots := [(1, snapZW)]
    draw_state := { dst0 with
                    next_draw_id := 0
                    regular_pool_balance := 100
                    last_regular_draw_epoch := none } }

def pC5commit : CommitDrawParams :=
  { draw_type := .regular, operator_commit := zeroesHex
    target_drand_round := 1000, epoch := 1 }

def pC5reveal : RevealDrawParams :=
  { draw_id := 0, operator_secret_hex := "", winner_address := "inj1w"
    winner_cumulative_start := 0, winner_cumulative_end := 1
    merkle_proof := [] }

/-- Committed regular draw past nothing, empty pool, for the conservation
witness. -/
def stW6 : DistState :=
  { st0 with
    draw_state := { dst0 with last_regular_draw_epoch := none } }

/-- `stW6` after `expire_draw` at a time past the deadline. -/
def stW6expired : DistState :=
  { stW6 with
    draw_state := { stW6.draw_state with regular_pool_balance := 50000000 }
    draws := [(0, { draw0 with status := .expired })] }

/-- Oracle fixtures. -/
def bcn0 : StoredBeacon :=
  { round := 5, randomness := List.replicate 32 0, signature := []
    verified := true, submitted_at := 0, submitted_by := "opr" }

def ocfg0 : OracleConfig :=
  { admin := "adm", operators := ["opr"], quicknet_pubkey := []
    chain_hash := "", genesis_time := 0, period_seconds := 3 }

def ost0 : OracleState :=
  { config := ocfg0, beacons := [(5, bcn0)], latest_round := some 5 }

def verify0 : List Nat → Nat → List Nat → Except String (List Nat) :=
  fun _ _ _ => .ok (List.replicate 32 0)

/-! ## Association-list lemmas -/

theorem alGet_alPut_self {κ α : Type} [DecidableEq κ] (m : List (κ × α))
    (k : κ) (v : α) : alGet (alPut m k v) k = some v := by
  simp [alPut, alGet]

theorem alGet_filter_ne {κ α : Type} [DecidableEq κ] (m : List (κ × α))
    (k k' : κ) (h : k' ≠ k) :
    alGet (m.filter fun p => decide (p.1 ≠ k)) k' = alGet m k' := by
  induction m with
  | nil => rfl
  | cons a rest ih =>
    obtain ⟨ka, va⟩ := a
    by_cases hk : ka = k
    · subst hk
      have hdrop : ((ka, va) :: rest).filter (fun p => decide (p.1 ≠ ka))
          = rest.filter (fun p => decide (p.1 ≠ ka)) := by simp
      rw [hdrop, ih]
      simp only [alGet, if_neg (fun hh : ka = k' => h hh.symm)]
    · have hkeep : ((ka, va) :: rest).filter (fun p => decide (p.1 ≠ k))
          = (ka, va) :: rest.filter (fun p => decide (p.1 ≠ k)) := by simp [hk]
      rw [hkeep]
      by_cases hk' : ka = k'
      · simp only [alGet, if_pos hk']
      · simp only [alGet, if_neg hk', ih]

theorem alGet_alPut_ne {κ α : Type} [DecidableEq κ] (m : List (κ × α))
    (k k' : κ) (v : α) (h : k' ≠ k) : alGet (alPut m k v) k' = alGet m k' := by
  simp only [alPut, alGet, if_neg (fun hh : k = k' => h hh.symm)]
  exact alGet_filter_ne m k k' h

theorem filter_ne_of_fresh {κ α : Type} [DecidableEq κ] (m : List (κ × α))
    (k : κ) (h : ∀ q ∈ m, q.1 ≠ k) :
    (m.filter fun p => decide (p.1 ≠ k)) = m := by
  induction m with
  | nil => rfl
  | cons a rest ih =>
    have ha : a.1 ≠ k := h a (List.mem_cons_self a rest)
    have : ((a.1, a.2) :: rest).filter (fun p => decide (p.1 ≠ k))
        = (a.1, a.2) :: rest.filter (fun p => decide (p.1 ≠ k)) := by simp [ha]
    rw [← Prod.mk.eta (p := a)] at *
    rw [this, ih fun q hq => h q (List.mem_cons_of_mem _ hq)]

/-! ## C10: totality of the Merkle verifier -/

theorem merkleLoop_false_of_invalid (H : List Nat → List Nat)
    (root : List Nat) (proof : List String) :
    ∀ cur : List Nat, (∃ sib ∈ proof, isHex32 sib = false) →
      merkleLoop H root cur proof = false := by
  induction proof with
  | nil =>
    rintro cur ⟨sib, hmem, _⟩
    cases hmem
  | cons a rest ih =>
    rintro cur ⟨sib, hmem, hbad⟩
    rcases List.mem_cons.mp hmem with heq | hmem'
    · subst heq
      unfold isHex32 at hbad
      simp only [merkleLoop]
      cases hd : hexDecode sib with
      | none => rfl
      | some bs =>
        rw [hd] at hbad
        simp only [beq_eq_false_iff_ne, ne_eq] at hbad
        simp [hbad]
    · simp only [merkleLoop]
      cases hd : hexDecode a with
      | none => rfl
      | some bs =>
        by_cases hlen : bs.length = 32
        · simpa [hlen] using ih _ ⟨sib, hmem', hbad⟩
        · simp [hlen]

/-- **C10.**  `verify_merkle_proof` is total: for every root string, proof
list and leaf hash it returns a boolean, and it returns `false` (rather
than erroring) whenever the root or any proof sibling is not valid hex
decoding to exactly 32 bytes. -/
theorem verify_merkle_proof_total_false_on_invalid
    (H : List Nat → List Nat) (root : String) (proof : List String)
    (leaf : List Nat) :
    (verify_merkle_proof H root proof leaf = true ∨
      verify_merkle_proof H root proof leaf = false)
    ∧ (isHex32 root = false → verify_merkle_proof H root proof leaf = false)
    ∧ ((∃ sib ∈ proof, isHex32 sib = false) →
        verify_merkle_proof H root proof leaf = false) := by
  refine ⟨Bool.eq_false_or_eq_true _, ?_, ?_⟩
  · intro hroot
    unfold isHex32 at hroot
    unfold verify_merkle_proof
    cases hd : hexDecode root with
    | none => rfl
    | some bs =>
      rw [hd] at hroot
      simp only [beq_eq_false_iff_ne, ne_eq] at hroot
      simp [hroot]
  · intro hbad
    unfold verify_merkle_proof
    cases hd : hexDecode root with
    | none => rfl
    | some bs =>
      by_cases hlen : bs.length = 32
      · simpa [hlen] using merkleLoop_false_of_invalid H bs proof leaf hbad
      · simp [hlen]

/-- Witness for C10 at a concrete invalid root. -/
theorem verify_merkle_proof_total_false_on_invalid_witness :
    isHex32 "zz" = false ∧ verify_merkle_proof H0 "zz" [] [] = false :=
  ⟨rfl, (verify_merkle_proof_total_false_on_invalid H0 "zz" [] []).2.1 rfl⟩


/-! ## C9: beacons are write-once and append-only -/

/-- **C9.** For every round that already has a stored beacon, an
operator-authorized `submit_beacon` call for that round fails with
`BeaconAlreadyExists` and the stored beacon is unchanged; moreover any
successful submission preserves every previously stored beacon and stores
its own beacon only out of a successful verification: beacons are
append-only and immutable once stored. -/
theorem beacon_append_only
    (verify : List Nat → Nat → List Nat → Except String (List Nat))
    (s : OracleState) (t : Nat) (sender : String) (round : Nat)
    (sig : String) (b : StoredBeacon)
    (hop : s.config.operators.contains sender = true)
    (hb : alGet s.beacons round = some b) :
    submit_beacon verify s t sender round sig
      = .error (.beaconAlreadyExists round)
    ∧ (∀ r' sig' s', submit_beacon verify s t sender r' sig' = .ok s' →
        (∀ r0 b0, alGet s.beacons r0 = some b0 → alGet s'.beacons r0 = some b0)
        ∧ ∃ sigb rnd, hexDecode sig' = some sigb
            ∧ verify s.config.quicknet_pubkey r' sigb = .ok rnd
            ∧ alGet s'.beacons r' = some
                { round := r', randomness := rnd, signature := sigb
                  verified := true, submitted_at := t, submitted_by := sender }) := by
  constructor
  · unfold submit_beacon
    rw [if_neg (by simpa using hop), if_pos (by simp [alHas, hb])]
  · intro r' sig' s' h
    unfold submit_beacon at h
    rw [if_neg (by simpa using hop)] at h
    by_cases hhas : alHas s.beacons r' = true
    · rw [if_pos hhas] at h
      cases h
    · rw [if_neg hhas] at h
      cases hdec : hexDecode sig' with
      | none => simp only [hdec] at h; cases h
      | some sigb =>
        simp only [hdec] at h
        cases hv : verify s.config.quicknet_pubkey r' sigb with
        | error e => simp only [hv] at h; cases h
        | ok rnd =>
          simp only [hv] at h
          cases h
          constructor
          · intro r0 b0 hb0
            have hne : r0 ≠ r' := by
              intro hEq
              rw [hEq] at hb0
              simp [alHas, hb0] at hhas
            simpa [alGet_alPut_ne s.beacons r' r0 _ hne] using hb0
          · exact ⟨sigb, rnd, rfl, hv, by simpa using alGet_alPut_self s.beacons r' _⟩

/-- Witness for C9: a stored beacon at round 5 blocks resubmission. -/
theorem beacon_append_only_witness :
    ost0.config.operators.contains "opr" = true
    ∧ alGet ost0.beacons 5 = some bcn0
    ∧ submit_beacon verify0 ost0 0 "opr" 5 "aa"
        = .error (.beaconAlreadyExists 5) :=
  ⟨rfl, rfl, (beacon_append_only verify0 ost0 0 "opr" 5 "aa" bcn0 rfl rfl).1⟩

/-! ## C2: commitment binding -/

/-- **C2.** For a draw in `Committed` status and a revealed secret whose
hash differs from the stored `operator_commit`, `reveal_draw` fails with
`CommitMismatch` regardless of the other arguments (the host applies the
error atomically, so the draw is unchanged). -/
theorem reveal_commit_mismatch
    (H : List Nat → List Nat) (oracle : Nat → Option (List Nat))
    (s : DistState) (t : Nat) (sender : String) (p : RevealDrawParams)
    (draw : Draw) (secret : List Nat)
    (hsender : sender = s.config.operator)
    (hd : alGet s.draws p.draw_id = some draw)
    (hst : draw.status = .committed)
    (htime : t ≤ draw.reveal_deadline)
    (hsec : hexDecode p.operator_secret_hex = some secret)
    (hne : hexEncode (H secret) ≠ draw.operator_commit) :
    reveal_draw H oracle s t sender p = .error .commitMismatch := by
  unfold reveal_draw
  simp [hsender, hd, hst, hsec, hne, Nat.not_lt.mpr htime]

/-- Witness for C2: secret `""` against a draw committed to `"00"`. -/
theorem reveal_commit_mismatch_witness :
    "op" = st2.config.operator
    ∧ alGet st2.draws 0 = some draw2
    ∧ draw2.status = .committed
    ∧ 0 ≤ draw2.reveal_deadline
    ∧ hexDecode "" = some []
    ∧ hexEncode (H0 []) ≠ draw2.operator_commit
    ∧ reveal_draw H0 oracle0 st2 0 "op" p0 = .error .commitMismatch :=
  ⟨rfl, rfl, rfl, Nat.zero_le _, rfl, by decide,
    reveal_commit_mismatch H0 oracle0 st2 0 "op" p0 draw2 []
      rfl rfl rfl (Nat.zero_le _) rfl (by decide)⟩

/-! ## C7: Revealed and Expired are terminal -/

/-- **C7.** For every draw whose status is `Revealed` or `Expired`, any
further `RevealDraw` (operator-authorized, against that id) or `ExpireDraw`
call fails with `DrawNotCommitted` — never succeeds, never silently
no-ops — so the only transitions taken are Committed→Revealed and
Committed→Expired. -/
theorem terminal_draw_immutable
    (s : DistState) (t : Nat) (sender : String) (draw_id : Nat) (draw : Draw)
    (hd : alGet s.draws draw_id = some draw)
    (hterm : draw.status = .revealed ∨ draw.status = .expired) :
    (∀ (H : List Nat → List Nat) (oracle : Nat → Option (List Nat))
        (p : RevealDrawParams), p.draw_id = draw_id →
        sender = s.config.operator →
        reveal_draw H oracle s t sender p = .error (.drawNotCommitted draw_id))
    ∧ expire_draw s t draw_id = .error (.drawNotCommitted draw_id) := by
  have hnc : draw.status ≠ .committed := by
    rcases hterm with h | h <;> simp [h]
  constructor
  · intro H oracle p hpid hsender
    subst hpid
    unfold reveal_draw
    simp [hsender, hd, hnc]
  · unfold expire_draw
    simp [hd, hnc]

/-- Witness for C7: a revealed draw rejects both calls. -/
theorem terminal_draw_immutable_witness :
    alGet st7.draws 0 = some draw7
    ∧ (draw7.status = .revealed ∨ draw7.status = .expired)
    ∧ reveal_draw H0 oracle0 st7 0 "op" p0 = .error (.drawNotCommitted 0)
    ∧ expire_draw st7 0 0 = .error (.drawNotCommitted 0) :=
  ⟨rfl, Or.inl rfl,
    (terminal_draw_immutable st7 0 "op" 0 draw7 rfl (Or.inl rfl)).1
      H0 oracle0 p0 rfl rfl,
    (terminal_draw_immutable st7 0 "op" 0 draw7 rfl (Or.inl rfl)).2⟩


/-! ## C3: snapshot overwrite (code bug) -/

/-- **C3** (counter-evidence).  The code accepts a second `SetSnapshot` for
an epoch that already has one and silently replaces the stored snapshot:
from a state holding `snapOld` at epoch 1, a hub-sent write with a
different root, weight and holder count succeeds and the lookup afterwards
returns the new snapshot.  The declared `SnapshotAlreadyExists` error is
never raised by `set_snapshot`. -/
theorem set_snapshot_overwrites_existing :
    alGet stC3.snapshots 1 = some snapOld
    ∧ Except.map (fun s' => alGet s'.snapshots 1)
        (set_snapshot stC3 7 "hub" 1 rootB 2000 20)
      = .ok (some { epoch := 1, merkle_root := rootB, total_weight := 2000
                    num_holders := 20, submitted_at := 7 })
    ∧ ({ epoch := 1, merkle_root := rootB, total_weight := 2000
         num_holders := 20, submitted_at := 7 } : Snapshot) ≠ snapOld :=
  ⟨rfl, rfl, by decide⟩

/-! ## C4 and C5: commit_draw accepts stale epochs and zero weight
(code bugs) -/

/-- The per-type branch of `commit_draw` can only fail with `DrawTooSoon`
or `EmptyPool`. -/
theorem commitInner_error_cases (cfg : DistributorConfig)
    (st : DrawStateInfo) (epoch : Nat) (ty : DrawType) (e : ContractError)
    (h : commitInner cfg st epoch ty = .error e) :
    (∃ dt ep le mg, e = .drawTooSoon dt ep le mg)
    ∨ ∃ pool, e = .emptyPool pool := by
  cases ty <;>
    ( simp only [commitInner] at h
      split at h <;> split_ifs at h <;>
        simp only [Except.error.injEq] at h <;>
        first
          | exact Or.inl ⟨_, _, _, _, h.symm⟩
          | exact Or.inr ⟨_, h.symm⟩ )

/-- **C4** (counter-evidence).  `commit_draw` never consults a
latest-epoch watermark: with snapshots stored for epochs 1 and 3 (latest
3), a commit naming the stale epoch 1 succeeds, and no input at all can
make `commit_draw` return `InvalidEpoch` — the declared variant is
unreachable. -/
theorem commit_draw_accepts_stale_epoch :
    alGet stC4.snapshots 3 = some snapE3
    ∧ pC4.epoch = 1
    ∧ (commit_draw stC4 0 "op" pC4).isOk = true
    ∧ ∀ (s : DistState) (t : Nat) (sender : String) (p : CommitDrawParams)
        (provided latest : Nat),
        commit_draw s t sender p ≠ .error (.invalidEpoch provided latest) := by
  refine ⟨rfl, rfl, rfl, ?_⟩
  intro s t sender p provided latest h
  unfold commit_draw at h
  by_cases h1 : sender ≠ s.config.operator
  · rw [if_pos h1] at h
    exact absurd h (by simp)
  · rw [if_neg h1] at h
    by_cases h2 : alHas s.snapshots p.epoch
    · rw [if_neg (not_not_intro h2)] at h
      cases hc : commitInner s.config s.draw_state p.epoch p.draw_type with
      | error e =>
        simp only [hc] at h
        rcases commitInner_error_cases _ _ _ _ _ hc with ⟨dt, ep, le, mg, rfl⟩ | ⟨pool, rfl⟩ <;>
          simp at h
      | ok pr =>
        simp only [hc] at h
        exact absurd h (by simp)
    · rw [if_pos h2] at h
      exact absurd h (by simp)

/-- **C5** (counter-evidence).  Nothing rejects a zero-total-weight
snapshot: `commit_draw` against `snapZW` (weight 0) succeeds, the
subsequent reveal reaches the `%` by zero (the modelled panic), and no
input can make `commit_draw` return `ZeroWeight` — the declared variant is
unreachable. -/
theorem commit_draw_accepts_zero_weight :
    snapZW.total_weight = 0
    ∧ (commit_draw stC5 0 "op" pC5commit).isOk = true
    ∧ Except.map (fun s' => reveal_draw H0 oracle0 s' 0 "op" pC5reveal)
        (commit_draw stC5 0 "op" pC5commit) = .ok (.error .remByZeroPanic)
    ∧ ∀ (s : DistState) (t : Nat) (sender : String) (p : CommitDrawParams),
        commit_draw s t sender p ≠ .error .zeroWeight := by
  refine ⟨rfl, rfl, rfl, ?_⟩
  intro s t sender p h
  unfold commit_draw at h
  by_cases h1 : sender ≠ s.config.operator
  · rw [if_pos h1] at h
    exact absurd h (by simp)
  · rw [if_neg h1] at h
    by_cases h2 : alHas s.snapshots p.epoch
    · rw [if_neg (not_not_intro h2)] at h
      cases hc : commitInner s.config s.draw_state p.epoch p.draw_type with
      | error e =>
        simp only [hc] at h
        rcases commitInner_error_cases _ _ _ _ _ hc with ⟨dt, ep, le, mg, rfl⟩ | ⟨pool, rfl⟩ <;>
          simp at h
      | ok pr =>
        simp only [hc] at h
        exact absurd h (by simp)
    · rw [if_pos h2] at h
      exact absurd h (by simp)

/-! ## C8: no custody-balance check in reveal_draw (code bug) -/

/-- **C8** (counter-evidence).  `reveal_draw` performs no custody-balance
check at all: no input can make it return `InsufficientContractBalance`
(the declared variant is unreachable), and on the concrete fixture it
succeeds and emits the full 50,000,000 send unconditionally — the
payout's failure on an underfunded contract would come from the host bank
module, not from this error. -/
theorem reveal_never_insufficient_balance :
    (∀ (H : List Nat → List Nat) (oracle : Nat → Option (List Nat))
        (s : DistState) (t : Nat) (sender : String) (p : RevealDrawParams)
        (required available : Nat),
        reveal_draw H oracle s t sender p
          ≠ .error (.insufficientContractBalance required available))
    ∧ Except.map (fun o => (o.send_to, o.send_amount))
        (reveal_draw H0 oracle0 st0 0 "op" p0)
      = .ok ("inj1winner", 50000000) := by
  refine ⟨?_, rfl⟩
  intro H oracle s t sender p required available h
  unfold reveal_draw at h
  repeat' split at h
  all_goals simp [ite_eq_iff] at h


/-! ## C1: the winning-ticket formula and its determinism -/

set_option maxHeartbeats 1000000 in
/-- **C1.** Whenever `reveal_draw` succeeds, the winning ticket it reports
and acts on equals `winningTicket drand (H secret) snapshot.total_weight`:
`final = drand XOR H(secret)` byte-wise over 32 bytes, then the big-endian
`u128` of `final[0..16]` modulo the snapshot's total weight.
`winningTicket` is a pure function of exactly those three inputs, so
recomputing it off-chain from the same inputs reproduces the on-chain
result. -/
theorem reveal_winning_ticket_formula
    (H : List Nat → List Nat) (oracle : Nat → Option (List Nat))
    (s : DistState) (t : Nat) (sender : String) (p : RevealDrawParams)
    (draw : Draw) (snapshot : Snapshot) (secret drand : List Nat)
    (hd : alGet s.draws p.draw_id = some draw)
    (hs : alGet s.snapshots draw.epoch = some snapshot)
    (hsec : hexDecode p.operator_secret_hex = some secret)
    (hdr : oracle draw.target_drand_round = some drand)
    (hok : (reveal_draw H oracle s t sender p).isOk = true) :
    Except.map RevealOutcome.winning_ticket (reveal_draw H oracle s t sender p)
      = .ok (winningTicket drand (H secret) snapshot.total_weight) := by
  unfold reveal_draw at hok ⊢
  simp only [hd, hs, hsec, hdr] at hok ⊢
  split_ifs at hok ⊢ <;>
    first
      | exact Bool.noConfusion hok
      | simp [Except.map, winningTicket]

/-- Witness for C1: a full successful reveal on the concrete fixture. -/
theorem reveal_winning_ticket_formula_witness :
    alGet st0.draws 0 = some draw0
    ∧ alGet st0.snapshots draw0.epoch = some snap0
    ∧ hexDecode "" = some []
    ∧ oracle0 draw0.target_drand_round = some (List.replicate 32 0)
    ∧ (reveal_draw H0 oracle0 st0 0 "op" p0).isOk = true
    ∧ Except.map RevealOutcome.winning_ticket (reveal_draw H0 oracle0 st0 0 "op" p0)
        = .ok (winningTicket (List.replicate 32 0) (H0 []) snap0.total_weight) :=
  ⟨rfl, rfl, rfl, rfl, rfl,
    reveal_winning_ticket_formula H0 oracle0 st0 0 "op" p0 draw0 snap0 []
      (List.replicate 32 0) rfl rfl rfl rfl rfl⟩


/-! ## C6: pool conservation -/

/-- A successful `commitInner` yields the whole pool of its type as the
reward, zeroes that pool, leaves the other pool alone and keeps
`next_draw_id`. -/
theorem commitInner_ok (cfg : DistributorConfig) (st : DrawStateInfo)
    (epoch : Nat) (ty : DrawType) (reward : Nat) (st1 : DrawStateInfo)
    (h : commitInner cfg st epoch ty = .ok (reward, st1)) :
    reward = poolOf st ty ∧ reward ≠ 0 ∧ poolOf st1 ty = 0
    ∧ (∀ ty', ty' ≠ ty → poolOf st1 ty' = poolOf st ty')
    ∧ st1.next_draw_id = st.next_draw_id := by
  cases ty <;>
    ( simp only [commitInner] at h
      split at h <;> split_ifs at h <;>
        first
          | exact Except.noConfusion h
          | ( simp only [Except.ok.injEq, Prod.mk.injEq] at h
              obtain ⟨hr, hst⟩ := h
              subst hr
              subst hst
              refine ⟨rfl, by assumption, rfl, ?_, rfl⟩
              intro ty' hty'
              cases ty' <;> simp_all [poolOf] ) )

/-- With the spacing precondition met and an empty pool, `commitInner`
fails with `EmptyPool`. -/
theorem commitInner_empty (cfg : DistributorConfig) (st : DrawStateInfo)
    (epoch : Nat) (ty : DrawType)
    (hspace : spacingOk cfg st epoch ty) (hpool : poolOf st ty = 0) :
    commitInner cfg st epoch ty = .error (.emptyPool (poolName ty)) := by
  cases ty
  case regular =>
    simp only [poolOf] at hpool
    simp only [commitInner, poolName]
    cases hl : st.last_regular_draw_epoch with
    | some last =>
      simp only [hl]
      rw [if_neg (hspace last hl), if_pos hpool]
    | none =>
      simp only [hl]
      rw [if_pos hpool]
  case big =>
    simp only [poolOf] at hpool
    simp only [commitInner, poolName]
    cases hl : st.last_big_draw_epoch with
    | some last =>
      simp only [hl]
      rw [if_neg (hspace last hl), if_pos hpool]
    | none =>
      simp only [hl]
      rw [if_pos hpool]

/-- Splitting the committed-rewards sum at a stored key, for states with
distinct draw ids. -/
theorem committedRewards_split (draws : List (Nat × Draw)) (k : Nat)
    (d : Draw) (ty : DrawType)
    (hnd : (draws.map Prod.fst).Nodup) (hget : alGet draws k = some d) :
    committedRewards draws ty
      = committedContribution d ty
        + committedRewards (draws.filter fun p => decide (p.1 ≠ k)) ty := by
  induction draws with
  | nil => cases hget
  | cons a rest ih =>
    obtain ⟨ka, va⟩ := a
    rw [List.map_cons, List.nodup_cons] at hnd
    obtain ⟨hka, hndrest⟩ := hnd
    by_cases hk : ka = k
    · subst hk
      have hva : va = d := by simpa [alGet] using hget
      subst hva
      have hfresh : ∀ q ∈ rest, q.1 ≠ ka := by
        intro q hq hEq
        exact hka (List.mem_map.mpr ⟨q, hq, hEq⟩)
      have hdrop : ((ka, va) :: rest).filter (fun p => decide (p.1 ≠ ka))
          = rest.filter (fun p => decide (p.1 ≠ ka)) := by simp
      rw [hdrop, filter_ne_of_fresh rest ka hfresh]
      simp [committedRewards]
    · have hget' : alGet rest k = some d := by simpa [alGet, hk] using hget
      have hkeep : ((ka, va) :: rest).filter (fun p => decide (p.1 ≠ k))
          = (ka, va) :: rest.filter (fun p => decide (p.1 ≠ k)) := by simp [hk]
      rw [hkeep]
      simp only [committedRewards]
      rw [ih hndrest hget']
      omega

/-- **C6.**  Per draw type, pool balance plus the rewards of that type's
`Committed` draws is invariant across Commit and Expire: a successful
commit drains the entire pool into the new draw's `reward_amount` and
zeroes the pool (and with the other preconditions met, a zero pool makes
the commit fail with `EmptyPool`); a successful expire returns exactly
`reward_amount` to the pool; and a successful reveal removes exactly
`reward_amount` from the quantity, for its type only.  The hypotheses —
stored draw ids distinct and below `next_draw_id` — hold in every
reachable state. -/
theorem pool_conservation
    (s : DistState) (t : Nat) (sender : String)
    (hfresh : ∀ q ∈ s.draws, q.1 < s.draw_state.next_draw_id)
    (hnodup : (s.draws.map Prod.fst).Nodup) :
    (∀ p s', commit_draw s t sender p = .ok s' →
        (∀ ty, poolInvariant s' ty = poolInvariant s ty)
        ∧ poolOf s'.draw_state p.draw_type = 0
        ∧ Option.map Draw.reward_amount (alGet s'.draws s.draw_state.next_draw_id)
            = some (poolOf s.draw_state p.draw_type))
    ∧ (∀ p : CommitDrawParams, sender = s.config.operator →
        alHas s.snapshots p.epoch →
        spacingOk s.config s.draw_state p.epoch p.draw_type →
        poolOf s.draw_state p.draw_type = 0 →
        commit_draw s t sender p = .error (.emptyPool (poolName p.draw_type)))
    ∧ (∀ draw_id s', expire_draw s t draw_id = .ok s' →
        ∀ ty, poolInvariant s' ty = poolInvariant s ty)
    ∧ (∀ (H : List Nat → List Nat) (oracle : Nat → Option (List Nat))
        (p : RevealDrawParams) (out : RevealOutcome) (draw : Draw),
        alGet s.draws p.draw_id = some draw →
        reveal_draw H oracle s t sender p = .ok out →
        out.send_amount = draw.reward_amount
        ∧ poolInvariant out.state draw.draw_type + draw.reward_amount
            = poolInvariant s draw.draw_type
        ∧ ∀ ty, ty ≠ draw.draw_type →
            poolInvariant out.state ty = poolInvariant s ty) := by
  refine ⟨?_, ?_, ?_, ?_⟩
  · -- Commit preserves the quantity, drains the pool, fixes the reward.
    intro p s' h
    unfold commit_draw at h
    by_cases h1 : sender ≠ s.config.operator
    · rw [if_pos h1] at h
      exact Except.noConfusion h
    rw [if_neg h1] at h
    by_cases h2 : alHas s.snapshots p.epoch
    case neg =>
      rw [if_pos h2] at h
      exact Except.noConfusion h
    rw [if_neg (not_not_intro h2)] at h
    cases hc : commitInner s.config s.draw_state p.epoch p.draw_type with
    | error e =>
      simp only [hc] at h
      exact Except.noConfusion h
    | ok pr =>
      obtain ⟨reward, st1⟩ := pr
      simp only [hc] at h
      obtain ⟨hrw, hno0, hzero, hother, hnid⟩ :=
        commitInner_ok _ _ _ _ _ _ hc
      injection h with h
      subst h
      have hfresh' : ∀ q ∈ s.draws, q.1 ≠ st1.next_draw_id := by
        intro q hq
        have := hfresh q hq
        omega
      refine ⟨?_, ?_, ?_⟩
      · intro ty
        unfold poolInvariant
        simp only [alPut, committedRewards, committedContribution,
          filter_ne_of_fresh s.draws st1.next_draw_id hfresh']
        have hpoolEq : poolOf
            { next_draw_id := st1.next_draw_id + 1
              regular_pool_balance := st1.regular_pool_balance
              big_pool_balance := st1.big_pool_balance
              total_draws_completed := st1.total_draws_completed
              total_rewards_distributed := st1.total_rewards_distributed
              last_regular_draw_epoch := st1.last_regular_draw_epoch
              last_big_draw_epoch := st1.last_big_draw_epoch } ty
            = poolOf st1 ty := by
          cases ty <;> rfl
        rw [hpoolEq]
        by_cases hty : ty = p.draw_type
        · subst hty
          rw [hzero, ← hrw]
          simp
        · rw [hother ty hty]
          have : ¬ (p.draw_type = ty) := fun hh => hty hh.symm
          simp [this]
      · exact hzero
      · rw [← hnid, alGet_alPut_self]
        simp [hrw]
  · -- EmptyPool on a drained pool.
    intro p hs1 hs2 hspace hpool0
    unfold commit_draw
    rw [if_neg (not_not_intro hs1)]
    rw [if_neg (not_not_intro hs2)]
    rw [commitInner_empty s.config s.draw_state p.epoch p.draw_type hspace hpool0]
  · -- Expire restores the reward to its pool.
    intro draw_id s' h ty
    unfold expire_draw at h
    cases hd : alGet s.draws draw_id with
    | none =>
      simp only [hd] at h
      exact Except.noConfusion h
    | some draw =>
      simp only [hd] at h
      by_cases hst : draw.status ≠ .committed
      · rw [if_pos hst] at h
        exact Except.noConfusion h
      rw [if_neg hst] at h
      by_cases htm : t ≤ draw.reveal_deadline
      · rw [if_pos htm] at h
        exact Except.noConfusion h
      rw [if_neg htm] at h
      have hstc : draw.status = .committed := not_not.mp hst
      injection h with h
      subst h
      unfold poolInvariant
      rw [committedRewards_split s.draws draw_id draw ty hnodup hd]
      simp only [alPut, committedRewards, committedContribution, hstc]
      cases hdt : draw.draw_type <;> cases ty <;>
        simp_all [poolOf] <;> omega
  · -- Reveal removes exactly the reward, once, from its type.
    intro H oracle p out draw hd h
    unfold reveal_draw at h
    by_cases h1 : sender ≠ s.config.operator
    · rw [if_pos h1] at h
      exact Except.noConfusion h
    rw [if_neg h1] at h
    simp only [hd] at h
    by_cases hst : draw.status ≠ .committed
    · rw [if_pos hst] at h
      exact Except.noConfusion h
    rw [if_neg hst] at h
    have hstc : draw.status = .committed := not_not.mp hst
    repeat' split at h
    all_goals try (exact Except.noConfusion h)
    injection h with h
    subst h
    refine ⟨rfl, ?_, ?_⟩
    · unfold poolInvariant
      rw [committedRewards_split s.draws p.draw_id draw draw.draw_type hnodup hd]
      simp only [alPut, committedRewards, committedContribution, hstc]
      cases hdt : draw.draw_type <;> simp_all [poolOf] <;> omega
    · intro ty hty
      unfold poolInvariant
      rw [committedRewards_split s.draws p.draw_id draw ty hnodup hd]
      simp only [alPut, committedRewards, committedContribution, hstc]
      cases hdt : draw.draw_type <;> cases ty <;> simp_all [poolOf]

/-- Witness for C6: expiring the committed fixture draw restores its
50,000,000 reward to the regular pool and preserves the conserved
quantity. -/
theorem pool_conservation_witness :
    (∀ q ∈ stW6.draws, q.1 < stW6.draw_state.next_draw_id)
    ∧ (stW6.draws.map Prod.fst).Nodup
    ∧ expire_draw stW6 (tsFromSeconds 3601) 0 = .ok stW6expired
    ∧ poolInvariant stW6expired DrawType.regular
        = poolInvariant stW6 DrawType.regular :=
  ⟨by decide, by decide, rfl,
    (pool_conservation stW6 (tsFromSeconds 3601) "op" (by decide)
        (by decide)).2.2.1 0 stW6expired rfl DrawType.regular⟩

end ChanceStaking
